import Mathlib

/-!
# Formal model of the YouTube transcription pipeline (src/app.py)

This file gives a shallow embedding, in Lean 4, of the single-file Streamlit
application `src/app.py` of the repository, together with theorems settling the
specification claims about it.

Modelling conventions:

* Python strings are modelled as Lean `String` / `List Char` (sequences of
  Unicode code points, as in CPython).
* The pure resolver `extract_video_id` is translated literally, including the
  five regular expressions (with Python `re.match` backtracking semantics) and
  the `urllib.parse.urlparse` / `parse_qs` fallback.  `urlparse` can raise
  `ValueError("Invalid IPv6 URL")`, so the embedded function returns
  `Except String (Option String)` where `.error` models a raised `ValueError`.
* The external collaborators (the `yt_dlp` download service, the `whisper`
  recognition service, the filesystem, Streamlit widgets) are abstracted as an
  environment `Env` of black-box behaviours, exactly as §1 of the spec treats
  them; the pipeline body of `main` is translated into a function from that
  environment to an `Outcome` plus a trace of filesystem/service `Effect`s.
* CPython reference semantics: the splitting logic of `urllib.parse` of
  CPython 3.11 (the leading C0-control/space lstrip and tab/CR/LF removal of
  `urlsplit`, the `uses_params` gate of `urlparse`).  The authority-validation
  raise paths are modelled exactly on the region the theorems below quantify
  over: the unmatched-bracket `ValueError("Invalid IPv6 URL")` (raised by
  every CPython 3 version) is modelled, and on authorities that are ASCII and
  bracket-free no CPython version in use can raise at all, which is what the
  no-raise theorem below is restricted to.  The remaining validation raise
  paths — the `_checknetloc` NFKC check, which fires only on some non-ASCII
  authorities (CPython ≥ 3.7.3), and the `_check_bracketed_host` check on
  bracket-balanced authorities (3.11+) — lie outside that region and are
  modelled as accepting; no theorem below relies on the embedding's value on
  a non-ASCII or bracketed authority.  `str.lower()` is modelled as ASCII
  lowercasing: no Unicode code point outside ASCII lowercases to an ASCII
  letter, so the comparisons against the ASCII hostnames of interest are
  unaffected.
-/

set_option maxRecDepth 8000

namespace App

/-! ## Generic helpers on character lists -/

/-- First `some` result of `f` over a list, in order (first match wins). -/
def firstSome {α β : Type} (f : α → Option β) : List α → Option β
  | [] => none
  | a :: rest =>
    match f a with
    | some b => some b
    | none => firstSome f rest

/-- Consume the literal `lit` from the front of `s`; `none` if it is not there. -/
def eatLit : List Char → List Char → Option (List Char)
  | [], s => some s
  | _ :: _, [] => none
  | c :: cs, d :: ds => if c = d then eatLit cs ds else none

/-- Split at the first occurrence of `ch` (Python `s.split(ch, 1)` when present). -/
def breakAt (ch : Char) : List Char → Option (List Char × List Char)
  | [] => none
  | c :: rest =>
    if c = ch then some ([], rest)
    else
      match breakAt ch rest with
      | some p => some (c :: p.1, p.2)
      | none => none

/-- Split around the last occurrence of `ch` (both parts exclude the separator). -/
def splitAtLast (ch : Char) : List Char → Option (List Char × List Char)
  | [] => none
  | c :: rest =>
    match splitAtLast ch rest with
    | some p => some (c :: p.1, p.2)
    | none => if c = ch then some ([], rest) else none

/-- Part after the last occurrence of `ch`, the whole list when `ch` is absent
(Python `s.rpartition(ch)[2]` when present, `s` otherwise). -/
def afterLast (ch : Char) (l : List Char) : List Char :=
  match splitAtLast ch l with
  | some p => p.2
  | none => l

/-- Python `str.split(sep)` for a one-character separator: full split, so that
`"".split sep = [""]` and separators at the ends produce empty fields. -/
def pySplit (sep : Char) : List Char → List (List Char)
  | [] => [[]]
  | c :: rest =>
    if c = sep then [] :: pySplit sep rest
    else
      match pySplit sep rest with
      | h :: t => (c :: h) :: t
      | [] => [[c]]

/-- Python `s.startswith(pre)`. -/
def pyStartsWith (s pre : String) : Bool :=
  pre.data.isPrefixOf s.data

/-- Python `s.endswith(suf)`. -/
def pyEndsWith (s suf : String) : Bool :=
  suf.data.isSuffixOf s.data

/-- Python substring membership `pat in s` (empty `pat` is a substring of
everything): `pat` occurs, contiguously, somewhere in `s`. -/
def isInfixOfChars (pat : List Char) : List Char → Bool
  | [] => pat.isEmpty
  | c :: rest => pat.isPrefixOf (c :: rest) || isInfixOfChars pat rest

/-- Python `os.path.join(a, b)` (posixpath, two arguments): an absolute second
component discards the first; otherwise a single `/` separates. -/
def osPathJoin (a b : String) : String :=
  if pyStartsWith b "/" then b
  else if a == "" || pyEndsWith a "/" then a ++ b
  else a ++ "/" ++ b

/-! ## Percent-decoding (`urllib.parse.unquote` / `unquote_plus`)

`unquote` splits the input into maximal runs of ASCII characters; inside a run
each `%XX` pair of hex digits becomes the byte `0xXX` and every other character
becomes its own byte, and the run's byte string is decoded as UTF-8 with
`errors='replace'` (each maximal ill-formed subpart becomes one U+FFFD).
Non-ASCII characters pass through unchanged. -/

/-- Value of an ASCII hex digit (both cases), as accepted by `_hextobyte`. -/
def hexDigitVal (c : Char) : Option Nat :=
  if '0' ≤ c ∧ c ≤ '9' then some (c.toNat - '0'.toNat)
  else if 'a' ≤ c ∧ c ≤ 'f' then some (c.toNat - 'a'.toNat + 10)
  else if 'A' ≤ c ∧ c ≤ 'F' then some (c.toNat - 'A'.toNat + 10)
  else none

/-- Token stream for `unquote`: a byte of an ASCII run, or a pass-through
non-ASCII character. -/
inductive QTok where
  | byte (b : Nat)
  | uchar (c : Char)
deriving DecidableEq

/-- Tokenize for `unquote`: `%XX` with two hex digits collapses to one byte
(`unquote_to_bytes`), a `%` not followed by two hex digits stays literal,
ASCII characters become their own byte, non-ASCII characters pass through. -/
def toTokens : List Char → List QTok
  | [] => []
  | '%' :: a :: b :: rest =>
    (match hexDigitVal a, hexDigitVal b with
     | some x, some y => QTok.byte (16 * x + y) :: toTokens rest
     | _, _ => QTok.byte 0x25 :: toTokens (a :: b :: rest))
  | '%' :: rest => QTok.byte 0x25 :: toTokens rest
  | c :: rest =>
    if c.toNat ≤ 0x7F then QTok.byte c.toNat :: toTokens rest
    else QTok.uchar c :: toTokens rest

/-- The U+FFFD replacement character. -/
def repl : Char := Char.ofNat 0xFFFD

/-- Continuation byte test `0x80 ≤ b ≤ 0xBF`. -/
def contb (b : Nat) : Bool := 0x80 ≤ b && b ≤ 0xBF

/-- UTF-8 decoding with `errors='replace'`: each maximal ill-formed subpart of
the byte sequence is replaced by one U+FFFD, per the CPython codec. -/
def utf8Decode : List Nat → List Char
  | [] => []
  | b :: rest =>
    if b ≤ 0x7F then Char.ofNat b :: utf8Decode rest
    else if b ≤ 0xC1 then repl :: utf8Decode rest
    else if b ≤ 0xDF then
      match rest with
      | [] => [repl]
      | b2 :: r2 =>
        if contb b2 then
          Char.ofNat ((b - 0xC0) * 64 + (b2 - 0x80)) :: utf8Decode r2
        else repl :: utf8Decode (b2 :: r2)
    else if b ≤ 0xEF then
      match rest with
      | [] => [repl]
      | b2 :: r2 =>
        if ((if b = 0xE0 then 0xA0 else 0x80) ≤ b2 &&
            b2 ≤ (if b = 0xED then 0x9F else 0xBF)) then
          match r2 with
          | [] => [repl]
          | b3 :: r3 =>
            if contb b3 then
              Char.ofNat (((b - 0xE0) * 64 + (b2 - 0x80)) * 64 + (b3 - 0x80)) ::
                utf8Decode r3
            else repl :: utf8Decode (b3 :: r3)
        else repl :: utf8Decode (b2 :: r2)
    else if b ≤ 0xF4 then
      match rest with
      | [] => [repl]
      | b2 :: r2 =>
        if ((if b = 0xF0 then 0x90 else 0x80) ≤ b2 &&
            b2 ≤ (if b = 0xF4 then 0x8F else 0xBF)) then
          match r2 with
          | [] => [repl]
          | b3 :: r3 =>
            if contb b3 then
              match r3 with
              | [] => [repl]
              | b4 :: r4 =>
                if contb b4 then
                  Char.ofNat ((((b - 0xF0) * 64 + (b2 - 0x80)) * 64 + (b3 - 0x80)) * 64
                    + (b4 - 0x80)) :: utf8Decode r4
                else repl :: utf8Decode (b4 :: r4)
            else repl :: utf8Decode (b3 :: r3)
        else repl :: utf8Decode (b2 :: r2)
    else repl :: utf8Decode rest

/-- Decode the token stream: maximal byte runs are UTF-8 decoded with
replacement (the accumulator holds the pending run, reversed), pass-through
characters flush the pending run. -/
def decodeTokensAux (acc : List Nat) : List QTok → List Char
  | [] => utf8Decode acc.reverse
  | QTok.byte b :: rest => decodeTokensAux (b :: acc) rest
  | QTok.uchar c :: rest => utf8Decode acc.reverse ++ c :: decodeTokensAux [] rest

/-- Python `urllib.parse.unquote(s)` with the default UTF-8/replace handling. -/
def unquote (s : String) : String :=
  ⟨decodeTokensAux [] (toTokens s.data)⟩

/-- Python `urllib.parse.unquote_plus` as used by `parse_qsl`:
`s.replace('+', ' ')` followed by `unquote`. -/
def unquote_plus (s : String) : String :=
  unquote ⟨s.data.map fun c => if c = '+' then ' ' else c⟩

/-! ## `urllib.parse.urlparse` and `parse_qs` -/

/-- Members of CPython `urllib.parse.scheme_chars` (ASCII letters, digits,
`+`, `-`, `.`). -/
def isSchemeChar (c : Char) : Bool :=
  c.isAlpha || c.isDigit || c = '+' || c = '-' || c = '.'

/-- The cleanup `urlsplit` applies before parsing: lstrip of C0 controls and
space (`_WHATWG_C0_CONTROL_OR_SPACE`), then removal of every tab, CR and LF
(`_UNSAFE_URL_BYTES_TO_REMOVE`). -/
def stripControls (l : List Char) : List Char :=
  (l.dropWhile fun c => c.toNat ≤ 0x20).filter
    fun c => !(c = '\t' || c = '\r' || c = '\n')

/-- Scheme splitting of `urlsplit`: a leading `name:` is a scheme when the name
is nonempty, starts with an ASCII letter and consists of scheme characters;
the scheme is lowercased.  Returns `(scheme, remainder)`. -/
def splitScheme (l : List Char) : List Char × List Char :=
  match breakAt ':' l with
  | some p =>
    (match p.1 with
     | [] => ([], l)
     | c :: cs =>
       if c.isAlpha && (c :: cs).all isSchemeChar then
         ((c :: cs).map Char.toLower, p.2)
       else ([], l))
  | none => ([], l)

/-- Netloc splitting of `urlsplit`: after a leading `//`, the netloc extends to
the first `/`, `?` or `#`.  An authority containing `[` without `]` (or
conversely) raises `ValueError("Invalid IPv6 URL")` in every CPython 3
version.  Returns `(netloc, remainder)`.  The further authority validations —
`_check_bracketed_host` on bracket-balanced authorities (3.11+) and the
`_checknetloc` NFKC check on non-ASCII authorities (≥ 3.7.3) — are not
modelled (the model accepts there); no theorem quantifies over bracketed or
non-ASCII authorities, see the no-raise theorem's ASCII bracket-free
hypothesis. -/
def splitNetloc (l : List Char) : Except String (List Char × List Char) :=
  match l with
  | '/' :: '/' :: rest =>
    if (rest.takeWhile fun c => !(c = '/' || c = '?' || c = '#')).contains '[' ≠
        (rest.takeWhile fun c => !(c = '/' || c = '?' || c = '#')).contains ']' then
      Except.error "Invalid IPv6 URL"
    else
      Except.ok (rest.takeWhile fun c => !(c = '/' || c = '?' || c = '#'),
                 rest.dropWhile fun c => !(c = '/' || c = '?' || c = '#'))
  | _ => Except.ok ([], l)

/-- The authority substring `urlsplit` isolates before validating it: empty
unless the (post-scheme) remainder starts with `//`, else the characters up to
the first `/`, `?` or `#`. -/
def rawNetlocOf (t : List Char) : List Char :=
  match t with
  | '/' :: '/' :: rest => rest.takeWhile fun c => !(c = '/' || c = '?' || c = '#')
  | _ => []

/-- The authority substring of a URL string, as `urlsplit` would isolate it. -/
def rawNetloc (url : String) : List Char :=
  rawNetlocOf (splitScheme (stripControls url.data)).2

/-- CPython `urllib.parse.uses_params`: the schemes for which `urlparse`
performs params splitting. -/
def uses_params : List String :=
  ["", "ftp", "hdl", "prospero", "http", "imap", "https", "shttp", "rtsp",
   "rtspu", "sip", "sips", "mms", "sftp", "tel"]

/-- Python `ParseResult` (the fields `urlparse` produces). -/
structure ParseResult where
  scheme : String
  netloc : String
  path : String
  params : String
  query : String
  fragment : String
deriving DecidableEq

/-- The `_splitparams` step of `urlparse`: when the part after the last `/`
(or the whole path if it has no `/`) contains a `;`, the path stops at that
`;` and the rest becomes `params`. -/
def splitparams (l : List Char) : List Char × List Char :=
  if l.contains ';' then
    match splitAtLast '/' l with
    | some p =>
      (match breakAt ';' p.2 with
       | some q => (p.1 ++ '/' :: q.1, q.2)
       | none => (l, []))
    | none =>
      (match breakAt ';' l with
       | some q => (q.1, q.2)
       | none => (l, []))
  else (l, [])

/-- Python `urllib.parse.urlparse` with default arguments: scheme, netloc,
fragment and query splitting, then params splitting gated on
`scheme in uses_params` (the source's `and ';' in url` conjunct is inside
`splitparams`, which leaves a semicolon-free path unchanged).  `.error` models
the `ValueError` raise of `urlsplit`. -/
def urlparse (url : String) : Except String ParseResult :=
  let sp := splitScheme (stripControls url.data)
  match splitNetloc sp.2 with
  | Except.error e => Except.error e
  | Except.ok nr =>
    let fs := match breakAt '#' nr.2 with
              | some p => p
              | none => (nr.2, [])
    let qs := match breakAt '?' fs.1 with
              | some p => p
              | none => (fs.1, [])
    let pp := if uses_params.contains ⟨sp.1⟩ then splitparams qs.1
              else (qs.1, [])
    Except.ok ⟨⟨sp.1⟩, ⟨nr.1⟩, ⟨pp.1⟩, ⟨pp.2⟩, ⟨qs.2⟩, ⟨fs.2⟩⟩

/-- The `hostname` property of a parse result: the part of the netloc after
the last `@`, then either the bracketed host or the part before the first `:`,
lowercased; `none` when empty. -/
def hostname (netloc : String) : Option String :=
  let hostpart :=
    match breakAt '[' (afterLast '@' netloc.data) with
    | some br =>
      (match breakAt ']' br.2 with
       | some h2 => h2.1
       | none => br.2)
    | none =>
      (match breakAt ':' (afterLast '@' netloc.data) with
       | some h2 => h2.1
       | none => afterLast '@' netloc.data)
  match hostpart with
  | [] => none
  | l => some ⟨l.map Char.toLower⟩

/-- Python `urllib.parse.parse_qsl(qs)` with default arguments: split on `&`,
skip empty fields, fields without `=` and fields with an empty value
(`keep_blank_values=False`), and percent-decode names and values with
`unquote_plus`. -/
def parse_qsl (qs : String) : List (String × String) :=
  (pySplit '&' qs.data).filterMap fun nv =>
    match nv with
    | [] => none
    | _ =>
      match breakAt '=' nv with
      | none => none
      | some p =>
        match p.2 with
        | [] => none
        | v => some (unquote_plus ⟨p.1⟩, unquote_plus ⟨v⟩)

/-- The expression `parse_qs(query).get('v', [None])[0]` of the source: the
first value bound to the name `v`, `none` when there is none. -/
def getParamV (qs : String) : Option String :=
  firstSome (fun p => if p.1 = "v" then some p.2 else none) (parse_qsl qs)

/-- The expression `path.split('/')[2]` of the source, as an `Option` (in the
source it is only evaluated on paths starting `/embed/` or `/v/`, where index 2
always exists). -/
def pathSegIdx2 (path : String) : Option String :=
  ((pySplit '/' path.data).get? 2).map fun l => ⟨l⟩

/-! ## The five regular expressions of `extract_video_id`

Each pattern is `(?:https?://)?(?:www\.)?` followed by a literal body and the
capture `(?P<id>[^?&/]+)`; the last pattern interposes a lazy `.*?&v=` after
`youtube\.com/watch\?`.  `re.match` anchors at the start only.  The optional
groups are tried in backtracking order (`https://`, then `http://`, then
nothing; `www.`, then nothing). -/

/-- Characters admitted by the capture `[^?&/]+`. -/
def idChar (c : Char) : Bool := !(c = '?' || c = '&' || c = '/')

/-- Greedy nonempty capture `(?P<id>[^?&/]+)` at the end of a pattern. -/
def captureId (s : List Char) : Option String :=
  match s.takeWhile idChar with
  | [] => none
  | l => some ⟨l⟩

/-- Remnants after `(?:https?://)?` in backtracking order. -/
def schemeRemnants (s : List Char) : List (List Char) :=
  (match eatLit "https://".data s with
   | some r => [r]
   | none => []) ++
  (match eatLit "http://".data s with
   | some r => [r]
   | none => []) ++ [s]

/-- Remnants after `(?:www\.)?` in backtracking order. -/
def wwwRemnants (s : List Char) : List (List Char) :=
  (match eatLit "www.".data s with
   | some r => [r]
   | none => []) ++ [s]

/-- Matcher for the four patterns of the shape
`(?:https?://)?(?:www\.)?<body>(?P<id>[^?&/]+)` under `re.match`. -/
def matchBodyId (body : String) (s : List Char) : Option String :=
  firstSome (fun r => (eatLit body.data r).bind captureId)
    ((schemeRemnants s).flatMap wwwRemnants)

/-- The lazy tail `.*?&v=(?P<id>[^?&/]+)`: the engine grows the lazy `.*?`
one character at a time (never across a newline, since `.` excludes `\n`),
trying `&v=` plus a nonempty capture at each stop. -/
def lazyAmpV : List Char → Option String
  | [] => none
  | c :: cs =>
    match (eatLit "&v=".data (c :: cs)).bind captureId with
    | some i => some i
    | none => if c = '\n' then none else lazyAmpV cs

/-- Matcher for the fifth pattern
`(?:https?://)?(?:www\.)?youtube\.com/watch\?.*?&v=(?P<id>[^?&/]+)`. -/
def matchWatchAmpV (s : List Char) : Option String :=
  firstSome (fun r => (eatLit "youtube.com/watch?".data r).bind lazyAmpV)
    ((schemeRemnants s).flatMap wwwRemnants)

/-- The `regex_patterns` list of the source, in source order. -/
def regexMatchers : List (List Char → Option String) :=
  [matchBodyId "youtu.be/",
   matchBodyId "youtube.com/embed/",
   matchBodyId "youtube.com/v/",
   matchBodyId "youtube.com/watch?v=",
   matchWatchAmpV]

/-- The `for pattern in regex_patterns` loop: first matcher that fires wins. -/
def regexExtract (s : List Char) : Option String :=
  firstSome (fun m => m s) regexMatchers

/-! ## `extract_video_id` -/

/-- The `urlparse` fallback branch of `extract_video_id` (lines 33-43 of
src/app.py), given the parse result. -/
def fallbackExtract (pr : ParseResult) : Option String :=
  if hostname pr.netloc = some "www.youtube.com" ∨
      hostname pr.netloc = some "youtube.com" then
    if pr.path = "/watch" then getParamV pr.query
    else if pyStartsWith pr.path "/embed/" then pathSegIdx2 pr.path
    else if pyStartsWith pr.path "/v/" then pathSegIdx2 pr.path
    else none
  else none

/-- `extract_video_id` of src/app.py: try the five regexes in order, then the
structured `urlparse` fallback; `.ok none` models returning Python `None`,
`.error` models the `ValueError` that `urlparse` can raise. -/
def extract_video_id (url : String) : Except String (Option String) :=
  match regexExtract url.data with
  | some v => Except.ok (some v)
  | none => (urlparse url).map fallbackExtract

/-! ## External services, effects, and the pipeline of `main` -/

/-- Black-box behaviour of the external collaborators for one run (spec §1
treats yt_dlp, whisper and the filesystem as external services):

* `download url dir filename`: `none` models `ydl.download([url])` returning
  normally, `some e` models it raising an exception rendered as `e`;
* `fileExists p` models `os.path.exists p` after the download attempt;
* `loadModel m`: `some e` models `whisper.load_model(m)` raising `e`;
* `transcribeRes p m lang`: the text `model.transcribe(p, language=lang)`
  produces (`.ok`), or the exception it raises (`.error`). -/
structure Env where
  download : String → String → String → Option String
  fileExists : String → Bool
  loadModel : String → Option String
  transcribeRes : String → String → String → Except String String

/-- Filesystem / external-service effects the pipeline performs, in order. -/
inductive Effect where
  | makedirs (dir : String)
  | download (url dir filename : String)
  | whisperRun (path model lang : String)
deriving DecidableEq

/-- Terminal result of one submission, as the user sees it. -/
inductive Outcome where
  | warned (msg : String)
  | failedResolve (msg : String)
  | failedDownload (msg : String)
  | failedTranscription (msg : String)
  | done (videoId transcription downloadName mime : String)
  | uncaught (exc : String)
deriving DecidableEq

/-- Message of `st.error` when `extract_video_id` yields no usable id. -/
def resolveMsg : String :=
  "No se pudo extraer el ID del video. Por favor, verifica la URL ingresada."

/-- Message of `st.error` when the audio file is absent after the download. -/
def dlFailMsg : String :=
  "No se pudo descargar el audio. Verifica la URL y vuelve a intentarlo."

/-- Message of `st.warning` for an empty URL input. -/
def emptyUrlMsg : String := "Por favor, ingresa una URL de YouTube."

/-- The in-band failure marker the orchestrator greps for (note: without the
trailing colon-space the failure variant itself appends). -/
def errorTag : String := "Error durante la transcripción"

/-- `transcribe_audio` of src/app.py: load the model and transcribe inside
`try`, catching any `Exception` into the in-band failure string
`f"Error durante la transcripción: {e}"`. -/
def transcribe_audio_fn (env : Env) (audio_path model_name language : String) :
    String :=
  match env.loadModel model_name with
  | some e => "Error durante la transcripción: " ++ e
  | none =>
    match env.transcribeRes audio_path model_name language with
    | Except.ok text => text
    | Except.error e => "Error durante la transcripción: " ++ e

/-- `download_audio` of src/app.py: `os.makedirs(output_dir, exist_ok=True)`
then `ydl.download([video_url])` with `outtmpl` joined from dir and filename;
returns the raised exception (if any) and the effects performed.  There is no
`try`/`except` in the source around either call. -/
def download_audio_fn (env : Env) (video_url output_dir filename : String) :
    Option String × List Effect :=
  (env.download video_url output_dir filename,
   [Effect.makedirs output_dir, Effect.download video_url output_dir filename])

/-- The body of `main` of src/app.py for one press of the button, given the
user inputs: the Python truthiness checks `if youtube_url:` and
`if video_id:` (empty string and `None` are falsy), the download stage, the
`os.path.exists` gate, the transcription stage, and the in-band failure
classification `if "Error durante la transcripción" not in transcription`.
UI-only calls (`st.success`, `st.video`, spinners) perform no modelled effect.
An exception with no handler (`ValueError` out of `extract_video_id`, a raise
out of `ydl.download`) leaves `main` as `Outcome.uncaught`. -/
def main (env : Env) (youtube_url language model_name : String) :
    Outcome × List Effect :=
  if youtube_url = "" then (Outcome.warned emptyUrlMsg, [])
  else
    match extract_video_id youtube_url with
    | Except.error e => (Outcome.uncaught e, [])
    | Except.ok none => (Outcome.failedResolve resolveMsg, [])
    | Except.ok (some video_id) =>
      if video_id = "" then (Outcome.failedResolve resolveMsg, [])
      else
        match download_audio_fn env youtube_url "audios" (video_id ++ ".mp3") with
        | (some exc, effs) => (Outcome.uncaught exc, effs)
        | (none, effs) =>
          if env.fileExists (osPathJoin "audios" (video_id ++ ".mp3")) then
            if isInfixOfChars errorTag.data
                (transcribe_audio_fn env (osPathJoin "audios" (video_id ++ ".mp3"))
                  model_name language).data then
              (Outcome.failedTranscription
                 (transcribe_audio_fn env (osPathJoin "audios" (video_id ++ ".mp3"))
                   model_name language),
               effs ++ [Effect.whisperRun (osPathJoin "audios" (video_id ++ ".mp3"))
                 model_name language])
            else
              (Outcome.done video_id
                 (transcribe_audio_fn env (osPathJoin "audios" (video_id ++ ".mp3"))
                   model_name language)
                 (video_id ++ "_transcription.txt") "text/plain",
               effs ++ [Effect.whisperRun (osPathJoin "audios" (video_id ++ ".mp3"))
                 model_name language])
          else (Outcome.failedDownload dlFailMsg, effs)

/-! ## Concrete service behaviours used to exercise the pipeline -/

/-- Every external call succeeds; the recognizer produces the text `hola`. -/
def envOk : Env :=
  ⟨fun _ _ _ => none, fun _ => true, fun _ => none, fun _ _ _ => Except.ok "hola"⟩

/-- The download service raises `DownloadError: boom`. -/
def envRaiseDl : Env :=
  ⟨fun _ _ _ => some "DownloadError: boom", fun _ => true, fun _ => none,
   fun _ _ _ => Except.ok "hola"⟩

/-- The download call returns but no file ever materializes on disk. -/
def envNoFile : Env :=
  ⟨fun _ _ _ => none, fun _ => false, fun _ => none, fun _ _ _ => Except.ok "hola"⟩

/-- Only the absolute path `/x.mp3` exists on disk; everything else succeeds. -/
def envSlashFile : Env :=
  ⟨fun _ _ _ => none, fun p => p == "/x.mp3", fun _ => none,
   fun _ _ _ => Except.ok "hola"⟩

/-- The recognizer succeeds and returns exactly the marker text
`Error durante la transcripción` (no colon) as a genuine transcription. -/
def envTagText : Env :=
  ⟨fun _ _ _ => none, fun _ => true, fun _ => none,
   fun _ _ _ => Except.ok "Error durante la transcripción"⟩

/-- The recognizer raises `boom`. -/
def envWhisperErr : Env :=
  ⟨fun _ _ _ => none, fun _ => true, fun _ => none,
   fun _ _ _ => Except.error "boom"⟩

/-! ## Helper lemmas -/

theorem string_ext {a b : String} (h : a.data = b.data) : a = b := by
  cases a; cases b; cases h; rfl

theorem data_append (a b : String) : (a ++ b).data = a.data ++ b.data := rfl

theorem string_append_assoc (a b c : String) : a ++ b ++ c = a ++ (b ++ c) :=
  string_ext (by simp [data_append, List.append_assoc])

theorem isPrefixOf_append_self (l t : List Char) : l.isPrefixOf (l ++ t) = true := by
  rw [List.isPrefixOf_iff_prefix]
  exact List.prefix_append l t

theorem pySplit_get_zero (sep : Char) (l : List Char) :
    (pySplit sep l).get? 0 = some (l.takeWhile fun c => c != sep) := by
  induction l with
  | nil => rfl
  | cons c rest ih =>
    by_cases h : c = sep
    · subst h; simp [pySplit, List.takeWhile_cons]
    · cases hp : pySplit sep rest with
      | nil => rw [hp] at ih; simp at ih
      | cons x t =>
        rw [hp] at ih
        simp only [List.get?] at ih
        simp [pySplit, h, hp, List.takeWhile_cons, Option.some.injEq] at ih ⊢
        exact ih

/-- A first-match-wins evaluation principle for `firstSome`. -/
theorem firstSome_of_get {α β : Type} (g : α → Option β) :
    ∀ (l : List α) (i : Nat) (a : α) (v : β),
      l.get? i = some a → g a = some v →
      (∀ j, j < i → ∀ b, l.get? j = some b → g b = none) →
      firstSome g l = some v := by
  intro l
  induction l with
  | nil => intro i a v h; simp at h
  | cons x rest ih =>
    intro i a v hget hg hnone
    cases i with
    | zero =>
      simp at hget
      subst hget
      simp [firstSome, hg]
    | succ k =>
      have hx : g x = none := hnone 0 (Nat.succ_pos k) x rfl
      simp only [List.get?] at hget
      simp only [firstSome, hx]
      exact ih k a v hget hg fun j hj b hb => hnone (j + 1) (Nat.succ_lt_succ hj) b hb

/-- On a bracket-free authority the embedded netloc stage cannot raise; on
such an authority (when it is also ASCII) no CPython version's `urlsplit` can
raise either, since every validation beyond the bracket-pairing check fires
only on bracketed or non-ASCII authorities. -/
theorem splitNetloc_ok (t : List Char)
    (h : ∀ c ∈ rawNetlocOf t, c ≠ '[' ∧ c ≠ ']') :
    ∃ nr, splitNetloc t = Except.ok nr := by
  unfold splitNetloc
  split
  · next rest =>
    simp only [rawNetlocOf] at h
    have hb : (rest.takeWhile fun c =>
        !(c = '/' || c = '?' || c = '#')).contains '[' = false := by
      rw [← Bool.not_eq_true]
      intro hc
      exact (h '[' (by simpa using hc)).1 rfl
    have hc2 : (rest.takeWhile fun c =>
        !(c = '/' || c = '?' || c = '#')).contains ']' = false := by
      rw [← Bool.not_eq_true]
      intro hc
      exact (h ']' (by simpa using hc)).2 rfl
    have hne : ¬((rest.takeWhile fun c =>
          !(c = '/' || c = '?' || c = '#')).contains '[' ≠
        (rest.takeWhile fun c => !(c = '/' || c = '?' || c = '#')).contains ']') := by
      rw [hb, hc2]
      exact fun hne2 => hne2 rfl
    rw [if_neg hne]
    exact ⟨_, rfl⟩
  · exact ⟨_, rfl⟩

/-! ## Claim C2 -/

/-- C2 counterexample: `extract_video_id` is claimed never to raise for any
malformed input, but on the input `http://[` the `urlparse` fallback raises
`ValueError("Invalid IPv6 URL")` (the five regexes do not match, the authority
is `[` with no closing bracket). -/
theorem c2_counterexample :
    extract_video_id "http://[" = Except.error "Invalid IPv6 URL" := rfl

/-- C2 (amended): `extract_video_id` returns an identifier or `None` — never
raises — on every input whose authority component is ASCII and bracket-free;
in particular it returns `None` on `https://example.com/`.  On that region no
CPython version's `urlparse` can raise either, since its validations beyond
the bracket-pairing check fire only on non-ASCII or bracketed authorities.
Inputs outside that region can make `urlparse` raise a `ValueError` that
propagates out of the function, as the unmatched bracket of `http://[`
does in every CPython 3 version. -/
theorem c2_amended :
    (∀ url : String,
      (∀ c ∈ rawNetloc url, c.toNat ≤ 0x7F ∧ c ≠ '[' ∧ c ≠ ']') →
      ∃ v, extract_video_id url = Except.ok v) ∧
    extract_video_id "https://example.com/" = Except.ok none := by
  refine ⟨?_, rfl⟩
  intro url hsafe
  unfold extract_video_id
  cases hre : regexExtract url.data with
  | some v => exact ⟨some v, rfl⟩
  | none =>
    obtain ⟨nr, hnr⟩ := splitNetloc_ok (splitScheme (stripControls url.data)).2
      fun c hcmem => (hsafe c hcmem).2
    cases hpr : urlparse url with
    | error e =>
      exfalso
      simp only [urlparse] at hpr
      rw [hnr] at hpr
      exact Except.noConfusion hpr
    | ok pr => exact ⟨fallbackExtract pr, rfl⟩

/-- Witness for C2 (amended): the authority of `https://example.org/a?b` is
ASCII and bracket-free, and resolution returns (with `None`) instead of
raising. -/
theorem c2_amended_witness :
    (∀ c ∈ rawNetloc "https://example.org/a?b",
      c.toNat ≤ 0x7F ∧ c ≠ '[' ∧ c ≠ ']') ∧
    ∃ v, extract_video_id "https://example.org/a?b" = Except.ok v :=
  ⟨by decide, c2_amended.1 "https://example.org/a?b" (by decide)⟩

/-! ## Claim C3 -/

/-- C3: each of the five recognized URL shapes resolves to `abc123`, and the
matchers of `regex_patterns` are tried in their fixed list order with the
first match winning: whenever matcher `i` fires and all earlier matchers
return no match, `extract_video_id` returns matcher `i`'s identifier. -/
theorem c3_ordered_matchers :
    extract_video_id "https://youtu.be/abc123" = Except.ok (some "abc123") ∧
    extract_video_id "https://www.youtube.com/watch?v=abc123" =
      Except.ok (some "abc123") ∧
    extract_video_id "https://www.youtube.com/watch?foo=1&v=abc123" =
      Except.ok (some "abc123") ∧
    extract_video_id "https://www.youtube.com/embed/abc123" =
      Except.ok (some "abc123") ∧
    extract_video_id "https://www.youtube.com/v/abc123" =
      Except.ok (some "abc123") ∧
    ∀ (url : String) (i : Nat) (m : List Char → Option String) (v : String),
      regexMatchers.get? i = some m → m url.data = some v →
      (∀ j, j < i → ∀ m2, regexMatchers.get? j = some m2 → m2 url.data = none) →
      extract_video_id url = Except.ok (some v) := by
  refine ⟨rfl, rfl, rfl, rfl, rfl, ?_⟩
  intro url i m v hm hv hearlier
  have h : regexExtract url.data = some v :=
    firstSome_of_get _ regexMatchers i m v hm hv hearlier
  unfold extract_video_id
  rw [h]

/-- Witness for C3: the third matcher (`youtube.com/v/`) fires on
`https://www.youtube.com/v/abc123` while the two earlier matchers do not. -/
theorem c3_witness :
    extract_video_id "https://www.youtube.com/v/abc123" = Except.ok (some "abc123") := by
  refine c3_ordered_matchers.2.2.2.2.2 "https://www.youtube.com/v/abc123" 2
    (matchBodyId "youtube.com/v/") "abc123" rfl rfl ?_
  intro j hj m2 hm2
  interval_cases j
  · have h0 : m2 = matchBodyId "youtu.be/" := by
      injection hm2 with h; exact h.symm
    rw [h0]; rfl
  · have h1 : m2 = matchBodyId "youtube.com/embed/" := by
      injection hm2 with h; exact h.symm
    rw [h1]; rfl

/-! ## Claim C5 -/

/-- C5: for every environment (hence every behaviour of `whisper.load_model`
and `model.transcribe`, including a raise on model load or on a nonexistent
input file), `transcribe_audio` either returns the recognizer's text or
returns the in-band failure string `Error durante la transcripción: <e>`;
being a total function into `String`, no exception crosses its boundary. -/
theorem c5_transcriber_total :
    ∀ (env : Env) (p m lang : String),
      (env.loadModel m = none ∧ ∃ t, env.transcribeRes p m lang = Except.ok t ∧
        transcribe_audio_fn env p m lang = t) ∨
      (∃ e, transcribe_audio_fn env p m lang =
        "Error durante la transcripción: " ++ e) := by
  intro env p m lang
  cases hl : env.loadModel m with
  | some e => exact Or.inr ⟨e, by unfold transcribe_audio_fn; rw [hl]⟩
  | none =>
    cases ht : env.transcribeRes p m lang with
    | ok t =>
      exact Or.inl ⟨rfl, t, rfl, by unfold transcribe_audio_fn; rw [hl, ht]⟩
    | error e =>
      exact Or.inr ⟨e, by unfold transcribe_audio_fn; rw [hl, ht]⟩

/-! ## Claim C7 -/

/-- C7: the resolver is deterministic — it is a pure function of the URL
string (the embedded `extract_video_id` consults no state, mirroring the
source, whose only ambient dependency is the semantically transparent regex
cache), so resolving equal inputs yields equal results on every call. -/
theorem c7_deterministic :
    ∀ u1 u2 : String, u1 = u2 → extract_video_id u1 = extract_video_id u2 :=
  fun _ _ h => congrArg extract_video_id h

/-- Witness for C7 at a concrete URL. -/
theorem c7_witness :
    extract_video_id "https://youtu.be/abc123" =
      extract_video_id "https://youtu.be/abc123" :=
  c7_deterministic "https://youtu.be/abc123" "https://youtu.be/abc123" rfl

/-! ## Claim C1 -/

/-- C1 counterexample: when the download service raises (here
`DownloadError: boom`) on the well-formed URL `https://youtu.be/abc123`, the
exception leaves the pipeline uncaught — `download_audio` and `main` have no
handler — instead of being surfaced as the acquisition-stage failure
message. -/
theorem c1_counterexample :
    (main envRaiseDl "https://youtu.be/abc123" "es" "base").1 =
      Outcome.uncaught "DownloadError: boom" ∧
    (main envRaiseDl "https://youtu.be/abc123" "es" "base").1 ≠
      Outcome.failedDownload dlFailMsg :=
  ⟨rfl, by decide⟩

/-- C1 (amended): an error raised by the external download service during
acquisition propagates out of the pipeline as an unhandled fault; the
acquisition-stage failure message is produced exactly in the other failure
mode, where the download call returns normally but the expected file is
absent from disk. -/
theorem c1_amended :
    ∀ (env : Env) (url lang model id : String), url ≠ "" →
      extract_video_id url = Except.ok (some id) → id ≠ "" →
      (∀ e, env.download url "audios" (id ++ ".mp3") = some e →
        (main env url lang model).1 = Outcome.uncaught e) ∧
      (env.download url "audios" (id ++ ".mp3") = none →
        env.fileExists (osPathJoin "audios" (id ++ ".mp3")) = false →
        (main env url lang model).1 = Outcome.failedDownload dlFailMsg) := by
  intro env url lang model id hu hex hid
  constructor
  · intro e hdl
    simp [main, hu, hex, hid, download_audio_fn, hdl]
  · intro hdl hfe
    simp [main, hu, hex, hid, download_audio_fn, hdl, hfe]

/-- Witness for C1 (amended): both failure modes at concrete inputs. -/
theorem c1_amended_witness :
    (main envRaiseDl "https://www.youtube.com/embed/abc123" "es" "base").1 =
      Outcome.uncaught "DownloadError: boom" ∧
    (main envNoFile "https://www.youtube.com/embed/abc123" "es" "base").1 =
      Outcome.failedDownload dlFailMsg := by
  constructor
  · exact (c1_amended envRaiseDl "https://www.youtube.com/embed/abc123" "es" "base"
      "abc123" (by decide) rfl (by decide)).1 "DownloadError: boom" rfl
  · exact (c1_amended envNoFile "https://www.youtube.com/embed/abc123" "es" "base"
      "abc123" (by decide) rfl (by decide)).2 rfl rfl

/-! ## Claim C4 -/

/-- C4: if the download call returns but the target audio file does not exist
on disk, the orchestrator fails with the acquisition-stage message and never
performs a recognition call; and in every run whatsoever, a recognition call
on a path only ever happens when that path exists on disk. -/
theorem c4_no_file_no_transcription :
    (∀ (env : Env) (url lang model id : String), url ≠ "" →
      extract_video_id url = Except.ok (some id) → id ≠ "" →
      env.download url "audios" (id ++ ".mp3") = none →
      env.fileExists (osPathJoin "audios" (id ++ ".mp3")) = false →
      (main env url lang model).1 = Outcome.failedDownload dlFailMsg ∧
      ∀ p m l, Effect.whisperRun p m l ∉ (main env url lang model).2) ∧
    (∀ (env : Env) (url lang model p m l : String),
      Effect.whisperRun p m l ∈ (main env url lang model).2 →
      env.fileExists p = true) := by
  constructor
  · intro env url lang model id hu hex hid hdl hfe
    constructor
    · simp [main, hu, hex, hid, download_audio_fn, hdl, hfe]
    · intro p m l
      simp [main, hu, hex, hid, download_audio_fn, hdl, hfe]
  · intro env url lang model p m l hmem
    by_cases hu : url = ""
    · simp [main, hu] at hmem
    · cases hex : extract_video_id url with
      | error e => simp [main, hu, hex] at hmem
      | ok vid =>
        cases vid with
        | none => simp [main, hu, hex] at hmem
        | some id =>
          by_cases hid : id = ""
          · simp [main, hu, hex, hid] at hmem
          · cases hdl : env.download url "audios" (id ++ ".mp3") with
            | some exc =>
              simp [main, hu, hex, hid, download_audio_fn, hdl] at hmem
            | none =>
              by_cases hfe : env.fileExists (osPathJoin "audios" (id ++ ".mp3")) = true
              · by_cases hinf : isInfixOfChars errorTag.data
                    (transcribe_audio_fn env (osPathJoin "audios" (id ++ ".mp3"))
                      model lang).data = true
                · simp [main, hu, hex, hid, download_audio_fn, hdl, hfe, hinf] at hmem
                  rw [hmem.1]
                  exact hfe
                · simp [main, hu, hex, hid, download_audio_fn, hdl, hfe, hinf] at hmem
                  rw [hmem.1]
                  exact hfe
              · simp [main, hu, hex, hid, download_audio_fn, hdl, hfe] at hmem

/-- Witness for C4: the absent-file run fails at acquisition with no
recognition effect, and a successful run's recognition call names an existing
path. -/
theorem c4_witness :
    ((main envNoFile "https://www.youtube.com/watch?v=abc123" "es" "base").1 =
        Outcome.failedDownload dlFailMsg ∧
      Effect.whisperRun "audios/abc123.mp3" "base" "es" ∉
        (main envNoFile "https://www.youtube.com/watch?v=abc123" "es" "base").2) ∧
    envOk.fileExists "audios/abc123.mp3" = true := by
  constructor
  · have h := c4_no_file_no_transcription.1 envNoFile
      "https://www.youtube.com/watch?v=abc123" "es" "base" "abc123"
      (by decide) rfl (by decide) rfl rfl
    exact ⟨h.1, h.2 "audios/abc123.mp3" "base" "es"⟩
  · exact c4_no_file_no_transcription.2 envOk
      "https://www.youtube.com/watch?v=abc123" "es" "base"
      "audios/abc123.mp3" "base" "es" (by decide)

/-! ## Claim C9 -/

/-- C9: on every URL the resolver maps to `None` (submitted nonempty), the
pipeline halts at the resolving stage with the identifier-not-extractable
message and performs no filesystem effect at all: no directory creation, no
download call, no recognition call. -/
theorem c9_no_writes_on_absence :
    ∀ (env : Env) (url lang model : String), url ≠ "" →
      extract_video_id url = Except.ok none →
      (main env url lang model).1 = Outcome.failedResolve resolveMsg ∧
      (main env url lang model).2 = [] := by
  intro env url lang model hu hex
  simp [main, hu, hex]

/-- Witness for C9 at the unrelated URL `https://example.com/`. -/
theorem c9_witness :
    (main envOk "https://example.com/" "es" "base").1 =
      Outcome.failedResolve resolveMsg ∧
    (main envOk "https://example.com/" "es" "base").2 = [] :=
  c9_no_writes_on_absence envOk "https://example.com/" "es" "base" (by decide) rfl

/-! ## Claim C6 -/

/-- C6: when no regex matcher fires, the resolver falls back to structured URL
parsing accepting only the hostnames `youtube.com` and `www.youtube.com`; a
`/watch` path yields the `v` query parameter, `/embed/<seg>` and `/v/<seg>`
paths yield the segment following the prefix (up to the next `/`), and any
other host or any other path yields `None`. -/
theorem c6_fallback_parsing :
    (∀ (url : String) (pr : ParseResult), regexExtract url.data = none →
      urlparse url = Except.ok pr →
      ¬(hostname pr.netloc = some "www.youtube.com" ∨
        hostname pr.netloc = some "youtube.com") →
      extract_video_id url = Except.ok none) ∧
    (∀ (url : String) (pr : ParseResult), regexExtract url.data = none →
      urlparse url = Except.ok pr →
      (hostname pr.netloc = some "www.youtube.com" ∨
        hostname pr.netloc = some "youtube.com") →
      pr.path = "/watch" →
      extract_video_id url = Except.ok (getParamV pr.query)) ∧
    (∀ (url : String) (pr : ParseResult) (seg : String),
      regexExtract url.data = none →
      urlparse url = Except.ok pr →
      (hostname pr.netloc = some "www.youtube.com" ∨
        hostname pr.netloc = some "youtube.com") →
      pr.path = "/embed/" ++ seg →
      extract_video_id url =
        Except.ok (some ⟨seg.data.takeWhile fun c => c != '/'⟩)) ∧
    (∀ (url : String) (pr : ParseResult) (seg : String),
      regexExtract url.data = none →
      urlparse url = Except.ok pr →
      (hostname pr.netloc = some "www.youtube.com" ∨
        hostname pr.netloc = some "youtube.com") →
      pr.path = "/v/" ++ seg →
      extract_video_id url =
        Except.ok (some ⟨seg.data.takeWhile fun c => c != '/'⟩)) ∧
    (∀ (url : String) (pr : ParseResult), regexExtract url.data = none →
      urlparse url = Except.ok pr →
      (hostname pr.netloc = some "www.youtube.com" ∨
        hostname pr.netloc = some "youtube.com") →
      pr.path ≠ "/watch" →
      pyStartsWith pr.path "/embed/" = false →
      pyStartsWith pr.path "/v/" = false →
      extract_video_id url = Except.ok none) := by
  have hbase : ∀ (url : String) (pr : ParseResult), regexExtract url.data = none →
      urlparse url = Except.ok pr →
      extract_video_id url = Except.ok (fallbackExtract pr) := by
    intro url pr hre hup
    unfold extract_video_id
    rw [hre, hup]
    rfl
  refine ⟨?_, ?_, ?_, ?_, ?_⟩
  · intro url pr hre hup hhost
    rw [hbase url pr hre hup]
    unfold fallbackExtract
    rw [if_neg hhost]
  · intro url pr hre hup hhost hpath
    rw [hbase url pr hre hup]
    unfold fallbackExtract
    rw [if_pos hhost, if_pos hpath]
  · intro url pr seg hre hup hhost hpath
    rw [hbase url pr hre hup]
    unfold fallbackExtract
    rw [if_pos hhost]
    have hnw : ¬pr.path = "/watch" := by
      rw [hpath]
      intro hw
      exact absurd (show (some 'e' : Option Char) = some 'w' from
        congrArg (fun s => s.data.get? 1) hw) (by decide)
    rw [if_neg hnw]
    have hsw : pyStartsWith pr.path "/embed/" = true := by
      rw [hpath]
      show ("/embed/".data).isPrefixOf ("/embed/" ++ seg).data = true
      rw [data_append]
      exact isPrefixOf_append_self _ _
    simp only [hsw, if_true]
    rw [hpath]
    show Except.ok (((pySplit '/' ("/embed/" ++ seg).data).get? 2).map
      fun l => (⟨l⟩ : String)) = _
    have hred : (pySplit '/' ("/embed/" ++ seg).data).get? 2 =
        (pySplit '/' seg.data).get? 0 := rfl
    rw [hred, pySplit_get_zero]
    rfl
  · intro url pr seg hre hup hhost hpath
    rw [hbase url pr hre hup]
    unfold fallbackExtract
    rw [if_pos hhost]
    have hnw : ¬pr.path = "/watch" := by
      rw [hpath]
      intro hw
      exact absurd (show (some 'v' : Option Char) = some 'w' from
        congrArg (fun s => s.data.get? 1) hw) (by decide)
    rw [if_neg hnw]
    have hse : pyStartsWith pr.path "/embed/" = false := by
      rw [hpath]
      rfl
    have hsv : pyStartsWith pr.path "/v/" = true := by
      rw [hpath]
      show ("/v/".data).isPrefixOf ("/v/" ++ seg).data = true
      rw [data_append]
      exact isPrefixOf_append_self _ _
    simp only [hse, hsv, if_true, Bool.false_eq_true, if_false]
    rw [hpath]
    show Except.ok (((pySplit '/' ("/v/" ++ seg).data).get? 2).map
      fun l => (⟨l⟩ : String)) = _
    have hred : (pySplit '/' ("/v/" ++ seg).data).get? 2 =
        (pySplit '/' seg.data).get? 0 := rfl
    rw [hred, pySplit_get_zero]
    rfl
  · intro url pr hre hup hhost hnw hse hsv
    rw [hbase url pr hre hup]
    unfold fallbackExtract
    rw [if_pos hhost, if_neg hnw]
    simp only [hse, hsv, Bool.false_eq_true, if_false]

/-- Witness for C6: one concrete URL through each fallback branch (the
uppercase hosts and the explicit port keep every regex from firing). -/
theorem c6_witness :
    extract_video_id "https://example.com/" = Except.ok none ∧
    extract_video_id "https://youtube.com:443/watch?v=%2Fx" =
      Except.ok (some "/x") ∧
    extract_video_id "https://YouTube.com/embed/seg1/x?q" =
      Except.ok (some "seg1") ∧
    extract_video_id "https://YouTube.com/v/id99/y" = Except.ok (some "id99") ∧
    extract_video_id "https://YouTube.com/abc" = Except.ok none := by
  refine ⟨?_, ?_, ?_, ?_, ?_⟩
  · exact c6_fallback_parsing.1 "https://example.com/"
      ⟨"https", "example.com", "/", "", "", ""⟩ rfl rfl (by decide)
  · exact c6_fallback_parsing.2.1 "https://youtube.com:443/watch?v=%2Fx"
      ⟨"https", "youtube.com:443", "/watch", "", "v=%2Fx", ""⟩ rfl rfl
      (Or.inr rfl) rfl
  · exact c6_fallback_parsing.2.2.1 "https://YouTube.com/embed/seg1/x?q"
      ⟨"https", "YouTube.com", "/embed/seg1/x", "", "q", ""⟩ "seg1/x" rfl rfl
      (Or.inr rfl) rfl
  · exact c6_fallback_parsing.2.2.2.1 "https://YouTube.com/v/id99/y"
      ⟨"https", "YouTube.com", "/v/id99/y", "", "", ""⟩ "id99/y" rfl rfl
      (Or.inr rfl) rfl
  · exact c6_fallback_parsing.2.2.2.2 "https://YouTube.com/abc"
      ⟨"https", "YouTube.com", "/abc", "", "", ""⟩ rfl rfl (Or.inr rfl)
      (by decide) rfl rfl

/-! ## Claim C8 -/

/-- C8 counterexample: on `https://youtube.com:443/watch?v=%2Fx` no regex
fires (the port breaks the literals) and the `/watch` fallback percent-decodes
the `v` parameter to the identifier `/x`; `os.path.join` then discards the
working directory, so the audio artifact path is `/x.mp3`, not
`audios//x.mp3` — the claimed `<working-dir>/<id>.mp3` shape fails. -/
theorem c8_counterexample :
    extract_video_id "https://youtube.com:443/watch?v=%2Fx" =
      Except.ok (some "/x") ∧
    (main envSlashFile "https://youtube.com:443/watch?v=%2Fx" "es" "base").2 =
      [Effect.makedirs "audios",
       Effect.download "https://youtube.com:443/watch?v=%2Fx" "audios" "/x.mp3",
       Effect.whisperRun "/x.mp3" "base" "es"] ∧
    (main envSlashFile "https://youtube.com:443/watch?v=%2Fx" "es" "base").1 =
      Outcome.done "/x" "hola" "/x_transcription.txt" "text/plain" ∧
    osPathJoin "audios" ("/x" ++ ".mp3") ≠ "audios/" ++ "/x" ++ ".mp3" :=
  ⟨rfl, rfl, rfl, by decide⟩

/-- C8 (amended): for every successfully resolved id that does not begin with
`/` (ids from the `/watch` query fallback may begin with a percent-decoded
slash, in which case `os.path.join` discards the working directory), the audio
artifact path is `audios/<id>.mp3` — the directory is created and the download
is invoked with exactly that directory and filename, and any recognition call
names exactly that path; and every successful outcome offers the download
named `<id>_transcription.txt` with MIME type `text/plain`. -/
theorem c8_amended :
    ∀ (env : Env) (url lang model id : String), url ≠ "" →
      extract_video_id url = Except.ok (some id) → id ≠ "" →
      id.data.head? ≠ some '/' →
      osPathJoin "audios" (id ++ ".mp3") = "audios/" ++ id ++ ".mp3" ∧
      (main env url lang model).2.take 2 =
        [Effect.makedirs "audios", Effect.download url "audios" (id ++ ".mp3")] ∧
      (∀ p m l, Effect.whisperRun p m l ∈ (main env url lang model).2 →
        p = "audios/" ++ id ++ ".mp3") ∧
      (∀ vid t dn mime, (main env url lang model).1 = Outcome.done vid t dn mime →
        vid = id ∧ dn = id ++ "_transcription.txt" ∧ mime = "text/plain") := by
  intro env url lang model id hu hex hid hslash
  have hjoin : osPathJoin "audios" (id ++ ".mp3") = "audios/" ++ id ++ ".mp3" := by
    have hns : pyStartsWith (id ++ ".mp3") "/" = false := by
      show ("/".data).isPrefixOf (id ++ ".mp3").data = false
      rw [data_append]
      cases hd : id.data with
      | nil => exact absurd (string_ext hd) hid
      | cons c cs =>
        have hc : c ≠ '/' := by
          intro h
          rw [hd, h] at hslash
          exact hslash rfl
        rw [Bool.eq_false_iff]
        intro htrue
        rw [List.isPrefixOf_iff_prefix] at htrue
        rcases htrue with ⟨t2, ht2⟩
        injection ht2 with h1 h2
        exact hc h1.symm
    unfold osPathJoin
    rw [hns]
    have hcond : (("audios" : String) == "" || pyEndsWith "audios" "/") = false := rfl
    rw [hcond]
    simp only [Bool.false_eq_true, if_false]
    rw [show ("audios" : String) ++ "/" = "audios/" from rfl]
    exact (string_append_assoc "audios/" id ".mp3").symm
  refine ⟨hjoin, ?_, ?_, ?_⟩
  · cases hdl : env.download url "audios" (id ++ ".mp3") with
    | some exc => simp [main, hu, hex, hid, download_audio_fn, hdl]
    | none =>
      by_cases hfe : env.fileExists (osPathJoin "audios" (id ++ ".mp3")) = true
      · by_cases hinf : isInfixOfChars errorTag.data
            (transcribe_audio_fn env (osPathJoin "audios" (id ++ ".mp3"))
              model lang).data = true
        · simp [main, hu, hex, hid, download_audio_fn, hdl, hfe, hinf]
        · simp [main, hu, hex, hid, download_audio_fn, hdl, hfe, hinf]
      · simp [main, hu, hex, hid, download_audio_fn, hdl, hfe]
  · intro p m l hmem
    cases hdl : env.download url "audios" (id ++ ".mp3") with
    | some exc =>
      simp [main, hu, hex, hid, download_audio_fn, hdl] at hmem
    | none =>
      by_cases hfe : env.fileExists (osPathJoin "audios" (id ++ ".mp3")) = true
      · by_cases hinf : isInfixOfChars errorTag.data
            (transcribe_audio_fn env (osPathJoin "audios" (id ++ ".mp3"))
              model lang).data = true
        · simp [main, hu, hex, hid, download_audio_fn, hdl, hfe, hinf] at hmem
          rw [hmem.1, hjoin]
        · simp [main, hu, hex, hid, download_audio_fn, hdl, hfe, hinf] at hmem
          rw [hmem.1, hjoin]
      · simp [main, hu, hex, hid, download_audio_fn, hdl, hfe] at hmem
  · intro vid t dn mime hdone
    cases hdl : env.download url "audios" (id ++ ".mp3") with
    | some exc =>
      simp [main, hu, hex, hid, download_audio_fn, hdl] at hdone
    | none =>
      by_cases hfe : env.fileExists (osPathJoin "audios" (id ++ ".mp3")) = true
      · by_cases hinf : isInfixOfChars errorTag.data
            (transcribe_audio_fn env (osPathJoin "audios" (id ++ ".mp3"))
              model lang).data = true
        · simp [main, hu, hex, hid, download_audio_fn, hdl, hfe, hinf] at hdone
        · simp [main, hu, hex, hid, download_audio_fn, hdl, hfe, hinf] at hdone
          exact ⟨hdone.1.symm, hdone.2.2.1.symm, hdone.2.2.2.symm⟩
      · simp [main, hu, hex, hid, download_audio_fn, hdl, hfe] at hdone

/-- Witness for C8 (amended) on a fully successful run with id `abc123`. -/
theorem c8_amended_witness :
    osPathJoin "audios" ("abc123" ++ ".mp3") = "audios/" ++ "abc123" ++ ".mp3" ∧
    (main envOk "https://youtu.be/abc123" "es" "base").2.take 2 =
      [Effect.makedirs "audios",
       Effect.download "https://youtu.be/abc123" "audios" ("abc123" ++ ".mp3")] ∧
    ("audios/abc123.mp3" : String) = "audios/" ++ "abc123" ++ ".mp3" ∧
    ("abc123" : String) = "abc123" ∧
      ("abc123_transcription.txt" : String) = "abc123" ++ "_transcription.txt" ∧
      ("text/plain" : String) = "text/plain" := by
  have h := c8_amended envOk "https://youtu.be/abc123" "es" "base" "abc123"
    (by decide) rfl (by decide) (by decide)
  exact ⟨h.1, h.2.1, h.2.2.1 "audios/abc123.mp3" "base" "es" (by decide),
    h.2.2.2 "abc123" "hola" "abc123_transcription.txt" "text/plain" rfl⟩

/-! ## Claim C10 -/

/-- C10 counterexample: when the recognizer genuinely returns the text
`Error durante la transcripción` (which does not contain the claimed marker
`Error durante la transcripción: ` with colon-space), the orchestrator still
classifies the run as a failure, because the code greps for the shorter
substring without the colon. -/
theorem c10_counterexample :
    (main envTagText "https://youtu.be/abc123" "es" "base").1 =
      Outcome.failedTranscription "Error durante la transcripción" ∧
    isInfixOfChars "Error durante la transcripción: ".data
      "Error durante la transcripción".data = false :=
  ⟨rfl, by decide⟩

/-- C10 (amended): the transcription failure variant is encoded in-band as a
string beginning with `Error durante la transcripción: `, and the orchestrator
classifies a result as success exactly when the substring
`Error durante la transcripción` (without the colon) does not occur anywhere
in the returned text; consequently a genuine transcription containing that
shorter substring is treated as a failure. -/
theorem c10_amended :
    (∀ (env : Env) (p m lang : String),
      (∀ e, env.loadModel m = some e →
        transcribe_audio_fn env p m lang =
          "Error durante la transcripción: " ++ e) ∧
      (∀ e, env.loadModel m = none → env.transcribeRes p m lang = Except.error e →
        transcribe_audio_fn env p m lang =
          "Error durante la transcripción: " ++ e)) ∧
    (∀ (env : Env) (url lang model id : String), url ≠ "" →
      extract_video_id url = Except.ok (some id) → id ≠ "" →
      env.download url "audios" (id ++ ".mp3") = none →
      env.fileExists (osPathJoin "audios" (id ++ ".mp3")) = true →
      (isInfixOfChars errorTag.data
          (transcribe_audio_fn env (osPathJoin "audios" (id ++ ".mp3"))
            model lang).data = true →
        (main env url lang model).1 = Outcome.failedTranscription
          (transcribe_audio_fn env (osPathJoin "audios" (id ++ ".mp3"))
            model lang)) ∧
      (isInfixOfChars errorTag.data
          (transcribe_audio_fn env (osPathJoin "audios" (id ++ ".mp3"))
            model lang).data = false →
        (main env url lang model).1 = Outcome.done id
          (transcribe_audio_fn env (osPathJoin "audios" (id ++ ".mp3"))
            model lang)
          (id ++ "_transcription.txt") "text/plain")) := by
  constructor
  · intro env p m lang
    constructor
    · intro e hl
      unfold transcribe_audio_fn
      rw [hl]
    · intro e hl ht
      unfold transcribe_audio_fn
      rw [hl, ht]
  · intro env url lang model id hu hex hid hdl hfe
    constructor
    · intro hinf
      simp [main, hu, hex, hid, download_audio_fn, hdl, hfe, hinf]
    · intro hinf
      simp [main, hu, hex, hid, download_audio_fn, hdl, hfe, hinf]

/-- Witness for C10 (amended): a raising recognizer yields the colon-tagged
failure string and a failed classification; a clean recognizer yields the
success outcome. -/
theorem c10_amended_witness :
    transcribe_audio_fn envWhisperErr "audios/abc123.mp3" "base" "es" =
      "Error durante la transcripción: " ++ "boom" ∧
    (main envWhisperErr "https://youtu.be/abc123" "es" "base").1 =
      Outcome.failedTranscription
        (transcribe_audio_fn envWhisperErr
          (osPathJoin "audios" ("abc123" ++ ".mp3")) "base" "es") ∧
    (main envOk "https://www.youtube.com/v/abc123" "es" "base").1 =
      Outcome.done "abc123"
        (transcribe_audio_fn envOk
          (osPathJoin "audios" ("abc123" ++ ".mp3")) "base" "es")
        ("abc123" ++ "_transcription.txt") "text/plain" := by
  refine ⟨?_, ?_, ?_⟩
  · exact (c10_amended.1 envWhisperErr "audios/abc123.mp3" "base" "es").2
      "boom" rfl rfl
  · exact (c10_amended.2 envWhisperErr "https://youtu.be/abc123" "es" "base"
      "abc123" (by decide) rfl (by decide) rfl rfl).1 (by decide)
  · exact (c10_amended.2 envOk "https://www.youtube.com/v/abc123" "es" "base"
      "abc123" (by decide) rfl (by decide) rfl rfl).2 (by decide)

end App
